import Mathlib

/-!
Verification of the judge engine in `src/judge/runner.py` (with the language
registry from `src/config.py`), as a shallow embedding.  Pure computations
(output normalization, truncation, verdict aggregation, score) are translated
directly; the behaviour of spawned subprocesses (the compiler process and each
test-case child process) is abstracted into explicit outcome values passed to
the embedded functions, mirroring exactly how `runner.py` branches on what the
subprocess did.
-/

namespace MoodleJudge

/-- Whitespace characters stripped by the Python method `str.rstrip` (ASCII
range), as used by the per-line rstrip in `_normalize_output`. -/
def pyIsSpace (c : Char) : Bool :=
  c = ' ' || c = '\t' || c = '\n' || c = '\r' || c = '\x0b' || c = '\x0c'

/-- Model of the replace step of `_normalize_output` (runner.py line 46):
left-to-right, non-overlapping replacement of each CRLF pair by a single
LF. -/
def replaceCRLF : List Char → List Char
  | [] => []
  | [c] => [c]
  | c :: d :: rest =>
    if c = '\r' ∧ d = '\n' then '\n' :: replaceCRLF rest
    else c :: replaceCRLF (d :: rest)

/-- Model of the Python split on LF (runner.py line 46): split into the list
of lines, keeping empty pieces (so the split of the empty text is `[[]]`). -/
def splitNL : List Char → List (List Char)
  | [] => [[]]
  | c :: rest =>
    if c = '\n' then [] :: splitNL rest
    else (c :: (splitNL rest).headD []) :: (splitNL rest).tail

/-- Model of the Python join with LF separators (runner.py line 52). -/
def joinNL : List (List Char) → List Char
  | [] => []
  | [l] => l
  | l :: m :: ms => l ++ '\n' :: joinNL (m :: ms)

/-- Model of the per-line rstrip (runner.py line 48): drop trailing
whitespace characters. -/
def rstrip (l : List Char) : List Char := List.rdropWhile pyIsSpace l

/-- The line list built by `_normalize_output` (runner.py lines 46-51):
unify CRLF to LF, split on LF, strip the trailing whitespace of each line,
then pop trailing empty lines. -/
def normLines (t : List Char) : List (List Char) :=
  List.rdropWhile List.isEmpty ((splitNL (replaceCRLF t)).map rstrip)

/-- `_normalize_output` on character lists: join the normalized line list
with LF. -/
def normalizeChars (t : List Char) : List Char := joinNL (normLines t)

/-- `_normalize_output` (runner.py lines 39-52). -/
def _normalize_output (s : String) : String := ⟨normalizeChars s.data⟩

/-- Verdict strings used by the judge. -/
inductive Verdict where
  | AC | WA | TLE | RE | CE
deriving DecidableEq, Repr

/-- `JudgeResult` (runner.py lines 17-26): result of judging one test case. -/
structure JudgeResult where
  test_case_id : Nat
  verdict : Verdict
  actual_output : String
  expected_output : String
  time_ms : Nat
  error : String
deriving DecidableEq, Repr

/-- Python slicing `s[:n]`: the first `n` characters of `s`. -/
def pySlice (n : Nat) (s : String) : String := ⟨s.data.take n⟩

/-- The `JudgeResult` initializer (runner.py lines 19-26): the only way the
code constructs a `JudgeResult`; it truncates `actual_output`,
`expected_output` and `error` to 500 characters (`[:500]`). -/
def mkJudgeResult (test_case_id : Nat) (verdict : Verdict)
    (actual_output expected_output : String) (time_ms : Nat) (error : String) :
    JudgeResult :=
  ⟨test_case_id, verdict, pySlice 500 actual_output, pySlice 500 expected_output,
   time_ms, pySlice 500 error⟩

/-- One entry of `Config.SUPPORTED_LANGUAGES` (config.py). -/
structure LangConfig where
  name : String
  extension : String
  compile_cmd : Option String
  run_command : String
deriving DecidableEq, Repr

/-- `Config.SUPPORTED_LANGUAGES` (config.py): the language registry. -/
def SUPPORTED_LANGUAGES (language : String) : Option LangConfig :=
  if language = "python" then
    some ⟨"Python 3", ".py", none, "python3 {file}"⟩
  else if language = "c" then
    some ⟨"C (GCC)", ".c", some "gcc -o {output} {file} -lm", "{output}"⟩
  else if language = "cpp" then
    some ⟨"C++ (G++)", ".cpp", some "g++ -o {output} {file} -lm", "{output}"⟩
  else none

/-- What the compiler subprocess did, abstracting the bounded `subprocess.run`
call in `compile_code` (runner.py lines 120-139): it either completed with an
exit code and captured stderr, hit the compilation timeout
(`subprocess.TimeoutExpired`), or failed to launch (`except Exception`). -/
inductive CompileOutcome where
  | completed (returncode : Int) (stderr : String)
  | timedOut
  | raised (msg : String)
deriving DecidableEq, Repr

/-- The `(success, error)` part of the return value of `compile_code` (the
executable path is an environment artifact and carries no judged content). -/
structure CompileRes where
  success : Bool
  error : String
deriving DecidableEq, Repr

/-- `compile_code` (runner.py lines 85-139), with the compiler-subprocess
behaviour passed in as a `CompileOutcome`.  An unknown language fails with
`Unsupported language: ...`; a language with no compile command (Python)
succeeds immediately without spawning a compiler; otherwise a non-zero exit
fails with `stderr[:1000]`, a timeout fails with `Compilation timed out`, and
a launch failure fails with `Compilation error: <msg>`. -/
def compile_code (language : String) (co : CompileOutcome) : CompileRes :=
  match SUPPORTED_LANGUAGES language with
  | none => ⟨false, "Unsupported language: " ++ language⟩
  | some cfg =>
    match cfg.compile_cmd with
    | none => ⟨true, ""⟩
    | some _ =>
      match co with
      | .completed rc stderr => if rc ≠ 0 then ⟨false, pySlice 1000 stderr⟩ else ⟨true, ""⟩
      | .timedOut => ⟨false, "Compilation timed out"⟩
      | .raised msg => ⟨false, "Compilation error: " ++ msg⟩

/-- What the child process of one test case did, abstracting the
`subprocess.Popen` / `proc.communicate` block in `run_test_case`
(runner.py lines 176-267): it either completed (with a measured wall time in
milliseconds, an exit code, and decoded stdout/stderr), was aborted because
the effective timeout expired (`subprocess.TimeoutExpired`), raised
`MemoryError`, or raised some other exception. -/
inductive RunOutcome where
  | completed (elapsed_ms : Nat) (returncode : Int) (stdout stderr : String)
  | timeoutExpired
  | memoryError
  | raised (msg : String)
deriving DecidableEq, Repr

/-- Return value of the embedded `run_test_case` together with the one side
effect the specification mentions: whether `_kill_process_tree` was invoked
(it is, exactly in the `TimeoutExpired` handler, runner.py line 205). -/
structure RunEffect where
  result : JudgeResult
  killed_tree : Bool
deriving DecidableEq, Repr

/-- `run_test_case` (runner.py lines 142-267), with the child-process
behaviour passed in as a `RunOutcome`.  Mirrors the branch order of the
source: unknown language → CE; timeout → kill tree, TLE reporting
`time_limit_s * 1000`; completed but over `time_limit_s * 1000 + 500` wall
time → TLE reporting the elapsed time; non-zero exit → RE with truncated
stderr; otherwise compare normalized outputs for AC/WA.  `MemoryError` and
any other exception are converted to RE. -/
def run_test_case (language : String) (input_data expected_output : String)
    (test_case_id : Nat) (time_limit_s : Nat) (memory_limit_mb : Nat)
    (outcome : RunOutcome) : RunEffect :=
  match SUPPORTED_LANGUAGES language with
  | none => ⟨mkJudgeResult test_case_id .CE "" "" 0 "Unsupported language", false⟩
  | some _ =>
    match outcome with
    | .timeoutExpired =>
      ⟨mkJudgeResult test_case_id .TLE "" expected_output (time_limit_s * 1000)
        "Time limit exceeded", true⟩
    | .memoryError =>
      ⟨mkJudgeResult test_case_id .RE "" expected_output 0
        "Memory limit exceeded", false⟩
    | .raised msg =>
      ⟨mkJudgeResult test_case_id .RE "" expected_output 0 (pySlice 500 msg), false⟩
    | .completed elapsed_ms rc stdout stderr =>
      if time_limit_s * 1000 + 500 < elapsed_ms then
        ⟨mkJudgeResult test_case_id .TLE "" expected_output elapsed_ms
          "Time limit exceeded", false⟩
      else if rc ≠ 0 then
        ⟨mkJudgeResult test_case_id .RE stdout expected_output elapsed_ms
          (pySlice 500 stderr), false⟩
      else if _normalize_output stdout = _normalize_output expected_output then
        ⟨mkJudgeResult test_case_id .AC (_normalize_output stdout)
          (_normalize_output expected_output) elapsed_ms "", false⟩
      else
        ⟨mkJudgeResult test_case_id .WA (_normalize_output stdout)
          (_normalize_output expected_output) elapsed_ms "", false⟩

/-- The fields of the `TestCase` model (models/database.py) read by the
judge: `id`, `input_data`, `expected_output`. -/
structure TestCase where
  id : Nat
  input_data : String
  expected_output : String
deriving DecidableEq, Repr

/-- The dict returned by `judge_submission` (runner.py lines 304-353).
`score` is modelled as an exact rational (`passed / total`). -/
structure JudgeReport where
  verdict : Verdict
  score : ℚ
  results : List JudgeResult
  error : String
deriving DecidableEq, Repr

/-- The per-test-case loop of `judge_submission` (runner.py lines 331-343),
transcribed with the three loop variables (`results`, `passed`,
`overall_verdict`) as accumulators and the loop index selecting the per-test
process behaviour from `outcomes`. -/
def judgeCases (language : String) (time_limit_s memory_limit_mb : Nat)
    (outcomes : Nat → RunOutcome) :
    Nat → List TestCase → List JudgeResult → Nat → Verdict →
    List JudgeResult × Nat × Verdict
  | _, [], results, passed, overall => (results, passed, overall)
  | i, tc :: rest, results, passed, overall =>
    let r := (run_test_case language tc.input_data tc.expected_output tc.id
      time_limit_s memory_limit_mb (outcomes i)).result
    judgeCases language time_limit_s memory_limit_mb outcomes (i + 1) rest
      (results ++ [r])
      (if r.verdict = .AC then passed + 1 else passed)
      (if r.verdict = .AC then overall
       else if overall = .AC then r.verdict else overall)

/-- `judge_submission` (runner.py lines 294-353), with the
compiler-subprocess behaviour and the per-test child-process behaviour
passed in as outcomes.  The nominal per-test limit is
`time_limit_s = max(1, time_limit_ms // 1000)`; a compile failure returns
`{CE, 0.0, [], error}` immediately; otherwise the test cases run in order
and `score = passed / total` (`0.0` when there are no test cases). -/
def judge_submission (language : String) (test_cases : List TestCase)
    (time_limit_ms memory_limit_mb : Nat) (co : CompileOutcome)
    (outcomes : Nat → RunOutcome) : JudgeReport :=
  let time_limit_s := max 1 (time_limit_ms / 1000)
  let c := compile_code language co
  if c.success = false then
    ⟨.CE, 0, [], c.error⟩
  else
    let fin := judgeCases language time_limit_s memory_limit_mb outcomes
      0 test_cases [] 0 .AC
    let total := test_cases.length
    let score : ℚ := if 0 < total then (fin.2.1 : ℚ) / (total : ℚ) else 0
    ⟨fin.2.2, score, fin.1, ""⟩

/-- Specification helper: the first verdict in the list that is not AC, or
AC when every verdict is AC. -/
def firstNonAC : List Verdict → Verdict
  | [] => .AC
  | v :: rest => if v = .AC then firstNonAC rest else v

/-- Specification helper: number of AC results. -/
def countAC : List JudgeResult → Nat
  | [] => 0
  | r :: rest => (if r.verdict = .AC then 1 else 0) + countAC rest

/-- Specification helper: how the `overall_verdict` accumulator of the loop
combines with the verdicts of the remaining results. -/
def mergeOverall (ov : Verdict) (rs : List JudgeResult) : Verdict :=
  if ov = .AC then firstNonAC (rs.map JudgeResult.verdict) else ov

/-- Specification helper: the per-test results produced by running the test
cases from index `i` on. -/
def runAllResults (language : String) (time_limit_s memory_limit_mb : Nat)
    (outcomes : Nat → RunOutcome) : Nat → List TestCase → List JudgeResult
  | _, [] => []
  | i, tc :: rest =>
    (run_test_case language tc.input_data tc.expected_output tc.id
      time_limit_s memory_limit_mb (outcomes i)).result ::
    runAllResults language time_limit_s memory_limit_mb outcomes (i + 1) rest

/-- Character lists with no CRLF pair; `replaceCRLF` fixes exactly these. -/
inductive NoCRLF : List Char → Prop where
  | nil : NoCRLF []
  | single (c : Char) : NoCRLF [c]
  | cons (c d : Char) (rest : List Char) (h : ¬(c = '\r' ∧ d = '\n'))
      (ht : NoCRLF (d :: rest)) : NoCRLF (c :: d :: rest)

/-- Four test cases expecting the output `ok` (scenario E). -/
def scenEtcs : List TestCase := [⟨1, "", "ok"⟩, ⟨2, "", "ok"⟩, ⟨3, "", "ok"⟩, ⟨4, "", "ok"⟩]

/-- Per-test process behaviours realising the verdicts AC, WA, AC, TLE on
`scenEtcs` (scenario E). -/
def scenEouts : Nat → RunOutcome := fun i =>
  if i = 0 then .completed 10 0 "ok" ""
  else if i = 1 then .completed 10 0 "bad" ""
  else if i = 2 then .completed 10 0 "ok" ""
  else .timeoutExpired

/-! Lemmas about the split, join, rstrip and CRLF-replacement building
blocks of the output comparator. -/

theorem splitNL_ne_nil (l : List Char) : splitNL l ≠ [] := by
  cases l with
  | nil => simp [splitNL]
  | cons c rest => simp only [splitNL]; split <;> simp

theorem notMem_of_mem_splitNL {m : List Char} {l : List Char}
    (hm : m ∈ splitNL l) : '\n' ∉ m := by
  induction l generalizing m with
  | nil => simp [splitNL] at hm; simp [hm]
  | cons c rest ih =>
    simp only [splitNL] at hm
    by_cases hc : c = '\n'
    · rw [if_pos hc] at hm
      rcases List.mem_cons.mp hm with hm | hm
      · simp [hm]
      · exact ih hm
    · rw [if_neg hc] at hm
      rcases List.mem_cons.mp hm with hm | hm
      · subst hm
        intro hmem
        rcases List.mem_cons.mp hmem with h | h
        · exact hc h.symm
        · have hhead : (splitNL rest).headD [] ∈ splitNL rest := by
            cases hsp : splitNL rest with
            | nil => exact absurd hsp (splitNL_ne_nil rest)
            | cons a as => simp
          exact ih hhead h
      · have hmem : m ∈ splitNL rest := by
          cases hsp : splitNL rest with
          | nil => exact absurd hsp (splitNL_ne_nil rest)
          | cons a as => rw [hsp] at hm; exact List.mem_cons_of_mem a hm
        exact ih hmem

theorem splitNL_append_nl {l : List Char} (h : '\n' ∉ l) (r : List Char) :
    splitNL (l ++ '\n' :: r) = l :: splitNL r := by
  induction l with
  | nil => simp [splitNL]
  | cons c l2 ih =>
    have hc : c ≠ '\n' := fun hc => h (hc ▸ List.mem_cons_self c l2)
    have h2 : '\n' ∉ l2 := fun hm => h (List.mem_cons_of_mem c hm)
    rw [List.cons_append]
    simp only [splitNL, if_neg hc]
    rw [ih h2]
    simp

theorem splitNL_of_not_nl {l : List Char} (h : '\n' ∉ l) : splitNL l = [l] := by
  induction l with
  | nil => simp [splitNL]
  | cons c l2 ih =>
    have hc : c ≠ '\n' := fun hc => h (hc ▸ List.mem_cons_self c l2)
    have h2 : '\n' ∉ l2 := fun hm => h (List.mem_cons_of_mem c hm)
    simp only [splitNL, if_neg hc]
    rw [ih h2]
    simp

theorem splitNL_joinNL {L : List (List Char)} (h : ∀ m ∈ L, '\n' ∉ m)
    (hne : L ≠ []) : splitNL (joinNL L) = L := by
  induction L with
  | nil => exact absurd rfl hne
  | cons l ls ih =>
    cases ls with
    | nil => simpa [joinNL] using splitNL_of_not_nl (h l (by simp))
    | cons m ms =>
      have h1 : '\n' ∉ l := h l (by simp)
      rw [joinNL, splitNL_append_nl h1,
        ih (fun x hx => h x (List.mem_cons_of_mem l hx)) (by simp)]

theorem replaceCRLF_eq_self {l : List Char} (h : NoCRLF l) :
    replaceCRLF l = l := by
  induction h with
  | nil => simp [replaceCRLF]
  | single c => simp [replaceCRLF]
  | cons c d rest hcd _ ih => simp only [replaceCRLF, if_neg hcd, ih]

theorem noCRLF_cons {c : Char} {x : List Char} (hc : c ≠ '\r')
    (h : NoCRLF x) : NoCRLF (c :: x) := by
  cases x with
  | nil => exact NoCRLF.single c
  | cons d rest => exact NoCRLF.cons c d rest (fun hp => hc hp.1) h

theorem noCRLF_of_not_nl {l : List Char} (h : '\n' ∉ l) : NoCRLF l := by
  induction l with
  | nil => exact NoCRLF.nil
  | cons c x ih =>
    have hx : '\n' ∉ x := fun hm => h (List.mem_cons_of_mem c hm)
    cases x with
    | nil => exact NoCRLF.single c
    | cons d rest =>
      have hd : d ≠ '\n' := fun hd => hx (hd ▸ List.mem_cons_self d rest)
      exact NoCRLF.cons c d rest (fun hp => hd hp.2) (ih hx)

theorem noCRLF_append_nl {l r : List Char} (hnl : '\n' ∉ l)
    (hcr : ∀ h : l ≠ [], l.getLast h ≠ '\r') (hr : NoCRLF r) :
    NoCRLF (l ++ '\n' :: r) := by
  induction l with
  | nil => exact noCRLF_cons (by decide) hr
  | cons c l2 ih =>
    have h2 : '\n' ∉ l2 := fun hm => hnl (List.mem_cons_of_mem c hm)
    cases l2 with
    | nil =>
      have hc : c ≠ '\r' := by
        have := hcr (by simp)
        simpa [List.getLast_singleton] using this
      exact noCRLF_cons hc (noCRLF_cons (by decide) hr)
    | cons d l3 =>
      have hd : d ≠ '\n' := fun hd => h2 (hd ▸ List.mem_cons_self d l3)
      have hcr2 : ∀ h : (d :: l3) ≠ [], (d :: l3).getLast h ≠ '\r' := by
        intro h
        have := hcr (by simp)
        rwa [List.getLast_cons h] at this
      have htail : NoCRLF ((d :: l3) ++ '\n' :: r) := ih h2 hcr2
      rw [List.cons_append]
      rw [List.cons_append] at htail
      exact NoCRLF.cons c d (l3 ++ '\n' :: r) (fun hp => hd hp.2) htail

theorem noCRLF_joinNL {L : List (List Char)} (hnl : ∀ m ∈ L, '\n' ∉ m)
    (hcr : ∀ m ∈ L, ∀ h : m ≠ [], m.getLast h ≠ '\r') :
    NoCRLF (joinNL L) := by
  induction L with
  | nil => exact NoCRLF.nil
  | cons l ls ih =>
    cases ls with
    | nil => exact noCRLF_of_not_nl (hnl l (by simp))
    | cons m ms =>
      rw [joinNL]
      exact noCRLF_append_nl (hnl l (by simp)) (hcr l (by simp))
        (ih (fun x hx => hnl x (List.mem_cons_of_mem l hx))
            (fun x hx => hcr x (List.mem_cons_of_mem l hx)))

theorem mem_of_mem_rdropWhile {α : Type} {p : α → Bool} {l : List α} {a : α}
    (h : a ∈ List.rdropWhile p l) : a ∈ l := by
  rw [List.rdropWhile] at h
  rw [List.mem_reverse] at h
  have := (List.dropWhile_sublist p).subset h
  rwa [List.mem_reverse] at this

theorem rstrip_rstrip (l : List Char) : rstrip (rstrip l) = rstrip l :=
  List.rdropWhile_idempotent pyIsSpace l

theorem rstrip_getLast_ne_cr {l : List Char} (hfix : rstrip l = l)
    (h : l ≠ []) : l.getLast h ≠ '\r' := by
  intro hlast
  have := List.rdropWhile_eq_self_iff.mp hfix h
  rw [hlast] at this
  exact this (by decide)

theorem map_id_of_mem {α : Type} {f : α → α} {l : List α}
    (h : ∀ a ∈ l, f a = a) : l.map f = l := by
  induction l with
  | nil => rfl
  | cons a l2 ih =>
    rw [List.map_cons, h a (by simp), ih (fun x hx => h x (List.mem_cons_of_mem a hx))]

/-! Lemmas about the normalized line list and idempotence of the
comparator normalization. -/

theorem exists_of_mem_normLines {m : List Char} {t : List Char}
    (hm : m ∈ normLines t) :
    ∃ m0 ∈ splitNL (replaceCRLF t), m = rstrip m0 := by
  have h1 : m ∈ (splitNL (replaceCRLF t)).map rstrip := mem_of_mem_rdropWhile hm
  rcases List.mem_map.mp h1 with ⟨m0, hm0, hr⟩
  exact ⟨m0, hm0, hr.symm⟩

theorem normLines_no_nl {m : List Char} {t : List Char}
    (hm : m ∈ normLines t) : '\n' ∉ m := by
  rcases exists_of_mem_normLines hm with ⟨m0, hm0, rfl⟩
  intro hmem
  exact notMem_of_mem_splitNL hm0 (mem_of_mem_rdropWhile hmem)

theorem normLines_rstrip_fixed {m : List Char} {t : List Char}
    (hm : m ∈ normLines t) : rstrip m = m := by
  rcases exists_of_mem_normLines hm with ⟨m0, _, rfl⟩
  exact rstrip_rstrip m0

theorem normLines_getLast_ne_cr {m : List Char} {t : List Char}
    (hm : m ∈ normLines t) : ∀ h : m ≠ [], m.getLast h ≠ '\r' :=
  fun h => rstrip_getLast_ne_cr (normLines_rstrip_fixed hm) h

theorem normLines_joinNL {t : List Char} (hne : normLines t ≠ []) :
    normLines (joinNL (normLines t)) = normLines t := by
  have hnl : ∀ m ∈ normLines t, '\n' ∉ m := fun m hm => normLines_no_nl hm
  have hcr : ∀ m ∈ normLines t, ∀ h : m ≠ [], m.getLast h ≠ '\r' :=
    fun m hm => normLines_getLast_ne_cr hm
  rw [normLines, replaceCRLF_eq_self (noCRLF_joinNL hnl hcr),
    splitNL_joinNL hnl hne,
    map_id_of_mem (fun m hm => normLines_rstrip_fixed hm)]
  exact List.rdropWhile_idempotent _ _

theorem normalizeChars_idem (t : List Char) :
    normalizeChars (normalizeChars t) = normalizeChars t := by
  by_cases hne : normLines t = []
  · have h0 : normalizeChars t = [] := by rw [normalizeChars, hne]; rfl
    rw [h0]
    rfl
  · rw [normalizeChars, normalizeChars, normLines_joinNL hne]

/-! Lemmas characterizing the orchestrator loop and the compile stage. -/

theorem judgeCases_spec (language : String) (tls mlm : Nat)
    (outcomes : Nat → RunOutcome) (l : List TestCase) :
    ∀ (i : Nat) (results : List JudgeResult) (passed : Nat) (overall : Verdict),
    judgeCases language tls mlm outcomes i l results passed overall =
      (results ++ runAllResults language tls mlm outcomes i l,
       passed + countAC (runAllResults language tls mlm outcomes i l),
       mergeOverall overall (runAllResults language tls mlm outcomes i l)) := by
  induction l with
  | nil =>
    intro i results passed overall
    simp only [judgeCases, runAllResults, countAC, mergeOverall, firstNonAC]
    by_cases hov : overall = .AC <;> simp [hov]
  | cons tc rest ih =>
    intro i results passed overall
    simp only [judgeCases, runAllResults]
    rw [ih]
    generalize (run_test_case language tc.input_data tc.expected_output tc.id
      tls mlm (outcomes i)).result = r
    by_cases hAC : r.verdict = .AC
    · by_cases hov : overall = .AC <;>
        simp [hAC, hov, countAC, mergeOverall, firstNonAC, List.append_assoc,
          Nat.add_comm, Nat.add_assoc, Nat.add_left_comm]
    · by_cases hov : overall = .AC <;>
        simp [hAC, hov, countAC, mergeOverall, firstNonAC, List.append_assoc]

theorem judge_submission_eq (language : String) (test_cases : List TestCase)
    (time_limit_ms memory_limit_mb : Nat) (co : CompileOutcome)
    (outcomes : Nat → RunOutcome)
    (h : (compile_code language co).success = true) :
    judge_submission language test_cases time_limit_ms memory_limit_mb co outcomes =
      ⟨mergeOverall .AC (runAllResults language (max 1 (time_limit_ms / 1000))
          memory_limit_mb outcomes 0 test_cases),
       if 0 < test_cases.length then
         (countAC (runAllResults language (max 1 (time_limit_ms / 1000))
             memory_limit_mb outcomes 0 test_cases) : ℚ) / (test_cases.length : ℚ)
       else 0,
       runAllResults language (max 1 (time_limit_ms / 1000)) memory_limit_mb
         outcomes 0 test_cases,
       ""⟩ := by
  rw [judge_submission]
  simp only [h, Bool.true_eq_false, if_false, judgeCases_spec, List.nil_append,
    Nat.zero_add]

theorem firstNonAC_eq_AC_iff (vs : List Verdict) :
    firstNonAC vs = .AC ↔ ∀ v ∈ vs, v = .AC := by
  induction vs with
  | nil => simp [firstNonAC]
  | cons v rest ih =>
    by_cases hv : v = .AC
    · simp [firstNonAC, hv, ih]
    · simp [firstNonAC, hv]

theorem supported_of_compile_success {language : String} {co : CompileOutcome}
    (h : (compile_code language co).success = true) :
    (SUPPORTED_LANGUAGES language).isSome = true := by
  rw [compile_code.eq_def] at h
  cases hs : SUPPORTED_LANGUAGES language with
  | none => rw [hs] at h; simp at h
  | some cfg => simp

theorem pySlice_pySlice (n : Nat) (s : String) :
    pySlice n (pySlice n s) = pySlice n s := by
  simp [pySlice, List.take_take]

theorem pySlice_eq_empty {n : Nat} (hn : 0 < n) {s : String}
    (h : pySlice n s = "") : s = "" := by
  apply String.ext
  have hd := congrArg String.data h
  rcases List.take_eq_nil_iff.mp hd with h0 | h0
  · omega
  · exact h0

theorem append_left_ne_empty {s : String} (t : String) (hs : s ≠ "") :
    s ++ t ≠ "" := by
  intro he
  apply hs
  apply String.ext
  have hd := congrArg String.data he
  rw [String.data_append] at hd
  exact (List.append_eq_nil.mp hd).1

theorem length_pySlice (n : Nat) (s : String) :
    (pySlice n s).length = min n s.length := by
  have h : (pySlice n s).length = (s.data.take n).length := rfl
  rw [h, List.length_take]
  rfl

theorem runAllResults_timeout_mem {language : String} {cfg : LangConfig}
    (hs : SUPPORTED_LANGUAGES language = some cfg) (tls mlm : Nat)
    (l : List TestCase) :
    ∀ i, ∀ r ∈ runAllResults language tls mlm
      (fun _ => RunOutcome.timeoutExpired) i l,
      r.verdict = .TLE ∧ r.time_ms = tls * 1000 := by
  induction l with
  | nil => intro i r hr; simp [runAllResults] at hr
  | cons tc rest ih =>
    intro i r hr
    rw [runAllResults] at hr
    rcases List.mem_cons.mp hr with hr | hr
    · subst hr
      rw [run_test_case.eq_def, hs]
      exact ⟨rfl, rfl⟩
    · exact ih (i + 1) r hr

theorem compile_code_none {language : String}
    (h : SUPPORTED_LANGUAGES language = none) (co : CompileOutcome) :
    compile_code language co =
      ⟨false, "Unsupported language: " ++ language⟩ := by
  rw [compile_code.eq_def, h]

theorem compile_code_nocmd {language : String} {cfg : LangConfig}
    (h : SUPPORTED_LANGUAGES language = some cfg)
    (hc : cfg.compile_cmd = none) (co : CompileOutcome) :
    compile_code language co = ⟨true, ""⟩ := by
  rw [compile_code.eq_def, h]
  simp only [hc]

theorem compile_code_completed {language : String} {cfg : LangConfig}
    {cmd : String} (h : SUPPORTED_LANGUAGES language = some cfg)
    (hc : cfg.compile_cmd = some cmd) (rc : Int) (stderr : String) :
    compile_code language (.completed rc stderr) =
      if rc ≠ 0 then ⟨false, pySlice 1000 stderr⟩ else ⟨true, ""⟩ := by
  rw [compile_code.eq_def, h]
  simp only [hc]

theorem compile_code_timedOut {language : String} {cfg : LangConfig}
    {cmd : String} (h : SUPPORTED_LANGUAGES language = some cfg)
    (hc : cfg.compile_cmd = some cmd) :
    compile_code language .timedOut = ⟨false, "Compilation timed out"⟩ := by
  rw [compile_code.eq_def, h]
  simp only [hc]

theorem compile_code_raised {language : String} {cfg : LangConfig}
    {cmd : String} (h : SUPPORTED_LANGUAGES language = some cfg)
    (hc : cfg.compile_cmd = some cmd) (msg : String) :
    compile_code language (.raised msg) =
      ⟨false, "Compilation error: " ++ msg⟩ := by
  rw [compile_code.eq_def, h]
  simp only [hc]

/-! Claim theorems. -/

/-- Claim C7: output normalization is idempotent: normalizing twice equals
normalizing once, for every text. -/
theorem normalize_output_idempotent (x : String) :
    _normalize_output (_normalize_output x) = _normalize_output x :=
  congrArg String.mk (normalizeChars_idem x.data)

/-- Claim C8: the comparator is insensitive to trailing whitespace, trailing
blank lines, and CRLF-vs-LF line endings, on the two sample pairs the
specification gives. -/
theorem normalize_output_insensitive :
    _normalize_output "a \nb\n\n" = _normalize_output "a\nb" ∧
    _normalize_output "a\r\nb" = _normalize_output "a\nb" := by
  decide

/-- Claim C9: every `JudgeResult`, however constructed (the initializer is
the only constructor the code uses), has `actual_output`, `expected_output`
and `error` of at most 500 characters. -/
theorem judgeResult_fields_truncated (tcid : Nat) (v : Verdict)
    (a e : String) (tms : Nat) (err : String) :
    (mkJudgeResult tcid v a e tms err).actual_output.length ≤ 500 ∧
    (mkJudgeResult tcid v a e tms err).expected_output.length ≤ 500 ∧
    (mkJudgeResult tcid v a e tms err).error.length ≤ 500 := by
  refine ⟨?_, ?_, ?_⟩
  · show (pySlice 500 a).length ≤ 500
    rw [length_pySlice]; omega
  · show (pySlice 500 e).length ≤ 500
    rw [length_pySlice]; omega
  · show (pySlice 500 err).length ≤ 500
    rw [length_pySlice]; omega

/-- Claim C1: for every submission whose compilation succeeds, the overall
verdict is AC iff every per-test verdict is AC; the overall verdict equals
the first non-AC per-test verdict in input order; and the score equals the
number of AC results divided by the number of test cases.  In particular
(second conjunct), per-test verdicts AC, WA, AC, TLE give overall verdict WA
and score 1/2. -/
theorem judge_verdict_and_score :
    (∀ (language : String) (test_cases : List TestCase)
        (time_limit_ms memory_limit_mb : Nat) (co : CompileOutcome)
        (outcomes : Nat → RunOutcome),
      (compile_code language co).success = true →
      ((judge_submission language test_cases time_limit_ms memory_limit_mb
          co outcomes).verdict = .AC ↔
        ∀ r ∈ (judge_submission language test_cases time_limit_ms
          memory_limit_mb co outcomes).results, r.verdict = .AC) ∧
      (judge_submission language test_cases time_limit_ms memory_limit_mb
          co outcomes).verdict =
        firstNonAC ((judge_submission language test_cases time_limit_ms
          memory_limit_mb co outcomes).results.map JudgeResult.verdict) ∧
      (judge_submission language test_cases time_limit_ms memory_limit_mb
          co outcomes).score =
        (countAC ((judge_submission language test_cases time_limit_ms
          memory_limit_mb co outcomes).results) : ℚ) /
        (test_cases.length : ℚ)) ∧
    ((judge_submission "python" scenEtcs 2000 256 (.completed 0 "")
        scenEouts).verdict = .WA ∧
     (judge_submission "python" scenEtcs 2000 256 (.completed 0 "")
        scenEouts).score = 1 / 2) := by
  constructor
  · intro language test_cases time_limit_ms memory_limit_mb co outcomes h
    rw [judge_submission_eq language test_cases time_limit_ms memory_limit_mb
      co outcomes h]
    refine ⟨?_, ?_, ?_⟩
    · show mergeOverall .AC _ = .AC ↔ _
      rw [mergeOverall, if_pos rfl, firstNonAC_eq_AC_iff]
      constructor
      · intro hall r hr
        exact hall r.verdict (List.mem_map.mpr ⟨r, hr, rfl⟩)
      · intro hall v hv
        rcases List.mem_map.mp hv with ⟨r, hr, rfl⟩
        exact hall r hr
    · show mergeOverall .AC _ = firstNonAC _
      rw [mergeOverall, if_pos rfl]
    · show (if 0 < test_cases.length then _ else _) = _
      by_cases hlen : 0 < test_cases.length
      · rw [if_pos hlen]
      · rw [if_neg hlen]
        have h0 : test_cases = [] :=
          List.length_eq_zero.mp (Nat.eq_zero_of_not_pos hlen)
        subst h0
        simp [runAllResults, countAC]
  · constructor
    · decide
    · have h := judge_submission_eq "python" scenEtcs 2000 256
        (.completed 0 "") scenEouts (by decide)
      rw [h]
      show (if 0 < scenEtcs.length then
        (countAC (runAllResults "python" (max 1 (2000 / 1000)) 256 scenEouts
          0 scenEtcs) : ℚ) / (scenEtcs.length : ℚ) else 0) = 1 / 2
      rw [show countAC (runAllResults "python" (max 1 (2000 / 1000)) 256
        scenEouts 0 scenEtcs) = 2 from by decide]
      norm_num [scenEtcs]

/-- Witness for C1: the aggregation law instantiated at a concrete
compile-succeeding submission. -/
theorem judge_verdict_and_score_witness :
    (compile_code "python" CompileOutcome.timedOut).success = true ∧
    (((judge_submission "python" [] 1000 1 CompileOutcome.timedOut
        (fun _ => RunOutcome.timeoutExpired)).verdict = .AC ↔
      ∀ r ∈ (judge_submission "python" [] 1000 1 CompileOutcome.timedOut
        (fun _ => RunOutcome.timeoutExpired)).results, r.verdict = .AC) ∧
     (judge_submission "python" [] 1000 1 CompileOutcome.timedOut
        (fun _ => RunOutcome.timeoutExpired)).verdict =
       firstNonAC ((judge_submission "python" [] 1000 1 CompileOutcome.timedOut
        (fun _ => RunOutcome.timeoutExpired)).results.map JudgeResult.verdict) ∧
     (judge_submission "python" [] 1000 1 CompileOutcome.timedOut
        (fun _ => RunOutcome.timeoutExpired)).score =
       (countAC ((judge_submission "python" [] 1000 1 CompileOutcome.timedOut
        (fun _ => RunOutcome.timeoutExpired)).results) : ℚ) /
       (([] : List TestCase).length : ℚ)) :=
  ⟨by decide, judge_verdict_and_score.1 "python" [] 1000 1
    CompileOutcome.timedOut (fun _ => RunOutcome.timeoutExpired) (by decide)⟩

/-- Claim C2 (amended): on every compile failure, `judge_submission` returns
immediately with verdict CE, score 0, empty results, and the compile error
from `compile_code`; the compile error is non-empty except in the one case
where the compiler itself exited non-zero with empty captured stderr. -/
theorem judge_ce_on_compile_failure (language : String)
    (test_cases : List TestCase) (time_limit_ms memory_limit_mb : Nat)
    (co : CompileOutcome) (outcomes : Nat → RunOutcome)
    (h : (compile_code language co).success = false) :
    (judge_submission language test_cases time_limit_ms memory_limit_mb co
      outcomes).verdict = .CE ∧
    (judge_submission language test_cases time_limit_ms memory_limit_mb co
      outcomes).score = 0 ∧
    (judge_submission language test_cases time_limit_ms memory_limit_mb co
      outcomes).results = [] ∧
    (judge_submission language test_cases time_limit_ms memory_limit_mb co
      outcomes).error = (compile_code language co).error ∧
    ((judge_submission language test_cases time_limit_ms memory_limit_mb co
      outcomes).error = "" → ∃ rc : Int, rc ≠ 0 ∧ co = .completed rc "") := by
  have hrep : judge_submission language test_cases time_limit_ms
      memory_limit_mb co outcomes =
      ⟨.CE, 0, [], (compile_code language co).error⟩ := by
    rw [judge_submission]
    simp only [h, if_pos]
  rw [hrep]
  refine ⟨rfl, rfl, rfl, rfl, ?_⟩
  intro he
  cases hs : SUPPORTED_LANGUAGES language with
  | none =>
    rw [compile_code_none hs co] at he
    exact absurd he (append_left_ne_empty language (by decide))
  | some cfg =>
    cases hc : cfg.compile_cmd with
    | none =>
      rw [compile_code_nocmd hs hc co] at h
      simp at h
    | some cmd =>
      cases co with
      | completed rc stderr =>
        rw [compile_code_completed hs hc rc stderr] at he
        by_cases hrc : rc ≠ 0
        · rw [if_pos hrc] at he
          exact ⟨rc, hrc, by rw [pySlice_eq_empty (by omega) he]⟩
        · rw [compile_code_completed hs hc rc stderr, if_neg hrc] at h
          simp at h
      | timedOut =>
        rw [compile_code_timedOut hs hc] at he
        exact absurd he (by decide)
      | raised msg =>
        rw [compile_code_raised hs hc msg] at he
        exact absurd he (append_left_ne_empty msg (by decide))

/-- Counterexample for C2 as stated: a C submission whose compiler exits
with code 1 and empty stderr fails compilation, yet the report carries an
empty compile error string, contradicting the claimed non-emptiness. -/
theorem judge_ce_empty_error_possible :
    (compile_code "c" (.completed 1 "")).success = false ∧
    (judge_submission "c" [⟨1, "", "ok"⟩] 2000 256 (.completed 1 "")
      (fun _ => RunOutcome.timeoutExpired)).verdict = .CE ∧
    (judge_submission "c" [⟨1, "", "ok"⟩] 2000 256 (.completed 1 "")
      (fun _ => RunOutcome.timeoutExpired)).error = "" := by
  decide

/-- Witness for C2 (amended): instantiated at a compile timeout for C. -/
theorem judge_ce_on_compile_failure_witness :
    (compile_code "c" CompileOutcome.timedOut).success = false ∧
    ((judge_submission "c" [] 1000 1 CompileOutcome.timedOut
      (fun _ => RunOutcome.timeoutExpired)).verdict = .CE ∧
    (judge_submission "c" [] 1000 1 CompileOutcome.timedOut
      (fun _ => RunOutcome.timeoutExpired)).score = 0 ∧
    (judge_submission "c" [] 1000 1 CompileOutcome.timedOut
      (fun _ => RunOutcome.timeoutExpired)).results = [] ∧
    (judge_submission "c" [] 1000 1 CompileOutcome.timedOut
      (fun _ => RunOutcome.timeoutExpired)).error =
      (compile_code "c" CompileOutcome.timedOut).error ∧
    ((judge_submission "c" [] 1000 1 CompileOutcome.timedOut
      (fun _ => RunOutcome.timeoutExpired)).error = "" →
      ∃ rc : Int, rc ≠ 0 ∧ CompileOutcome.timedOut =
        CompileOutcome.completed rc "")) :=
  ⟨by decide, judge_ce_on_compile_failure "c" [] 1000 1
    CompileOutcome.timedOut (fun _ => RunOutcome.timeoutExpired) (by decide)⟩

/-- Claim C3: when the effective timeout expires, `run_test_case` kills the
process tree and returns TLE with `time_ms` equal to the nominal limit in
milliseconds, not the effective timeout. -/
theorem run_timeout_reports_nominal_limit (language : String)
    (input_data expected_output : String)
    (test_case_id time_limit_s memory_limit_mb : Nat)
    (h : (SUPPORTED_LANGUAGES language).isSome = true) :
    (run_test_case language input_data expected_output test_case_id
      time_limit_s memory_limit_mb .timeoutExpired).killed_tree = true ∧
    (run_test_case language input_data expected_output test_case_id
      time_limit_s memory_limit_mb .timeoutExpired).result.verdict = .TLE ∧
    (run_test_case language input_data expected_output test_case_id
      time_limit_s memory_limit_mb .timeoutExpired).result.time_ms =
      time_limit_s * 1000 ∧
    (run_test_case language input_data expected_output test_case_id
      time_limit_s memory_limit_mb .timeoutExpired).result.time_ms ≠
      time_limit_s * 1000 + 1500 := by
  rcases Option.isSome_iff_exists.mp h with ⟨cfg, hs⟩
  rw [run_test_case.eq_def, hs]
  refine ⟨rfl, rfl, rfl, ?_⟩
  show time_limit_s * 1000 ≠ time_limit_s * 1000 + 1500
  omega

/-- Witness for C3: a Python run with a 2 s nominal limit that hits the
hard timeout. -/
theorem run_timeout_reports_nominal_limit_witness :
    (SUPPORTED_LANGUAGES "python").isSome = true ∧
    ((run_test_case "python" "" "" 1 2 256 .timeoutExpired).killed_tree =
      true ∧
    (run_test_case "python" "" "" 1 2 256
      .timeoutExpired).result.verdict = .TLE ∧
    (run_test_case "python" "" "" 1 2 256
      .timeoutExpired).result.time_ms = 2 * 1000 ∧
    (run_test_case "python" "" "" 1 2 256
      .timeoutExpired).result.time_ms ≠ 2 * 1000 + 1500) :=
  ⟨by decide, run_timeout_reports_nominal_limit "python" "" "" 1 2 256
    (by decide)⟩

/-- Claim C4: when the child completes but the measured wall time exceeds
the nominal limit plus the fixed 500 ms slack, `run_test_case` returns TLE
with `time_ms` equal to the measured elapsed time, regardless of exit code
and outputs. -/
theorem run_slack_check_tle (language : String)
    (input_data expected_output : String)
    (test_case_id time_limit_s memory_limit_mb elapsed_ms : Nat)
    (rc : Int) (stdout stderr : String)
    (h : (SUPPORTED_LANGUAGES language).isSome = true)
    (hover : time_limit_s * 1000 + 500 < elapsed_ms) :
    (run_test_case language input_data expected_output test_case_id
      time_limit_s memory_limit_mb
      (.completed elapsed_ms rc stdout stderr)).result.verdict = .TLE ∧
    (run_test_case language input_data expected_output test_case_id
      time_limit_s memory_limit_mb
      (.completed elapsed_ms rc stdout stderr)).result.time_ms =
      elapsed_ms := by
  rcases Option.isSome_iff_exists.mp h with ⟨cfg, hs⟩
  rw [run_test_case.eq_def, hs]
  simp only [if_pos hover]
  exact ⟨rfl, rfl⟩

/-- Witness for C4: a run that exits 0 with the expected output but takes
1600 ms against a 1 s limit is judged TLE, not AC. -/
theorem run_slack_check_tle_witness :
    (SUPPORTED_LANGUAGES "python").isSome = true ∧
    1 * 1000 + 500 < 1600 ∧
    ((run_test_case "python" "" "x" 1 1 256
      (.completed 1600 0 "x" "")).result.verdict = .TLE ∧
    (run_test_case "python" "" "x" 1 1 256
      (.completed 1600 0 "x" "")).result.time_ms = 1600) :=
  ⟨by decide, by decide, run_slack_check_tle "python" "" "x" 1 1 256 1600
    0 "x" "" (by decide) (by decide)⟩

/-- Claim C5: `run_test_case` always returns a `JudgeResult` (it is a total
function of the process outcome); an exception raised during the run is
converted to verdict RE carrying the exception message truncated to 500
characters, and a `MemoryError` to RE as well. -/
theorem run_exceptions_become_re (language : String)
    (input_data expected_output : String)
    (test_case_id time_limit_s memory_limit_mb : Nat) (msg : String)
    (h : (SUPPORTED_LANGUAGES language).isSome = true) :
    ((run_test_case language input_data expected_output test_case_id
        time_limit_s memory_limit_mb (.raised msg)).result.verdict = .RE ∧
     (run_test_case language input_data expected_output test_case_id
        time_limit_s memory_limit_mb (.raised msg)).result.error =
        pySlice 500 msg) ∧
    ((run_test_case language input_data expected_output test_case_id
        time_limit_s memory_limit_mb .memoryError).result.verdict = .RE ∧
     (run_test_case language input_data expected_output test_case_id
        time_limit_s memory_limit_mb .memoryError).result.error =
        "Memory limit exceeded") := by
  rcases Option.isSome_iff_exists.mp h with ⟨cfg, hs⟩
  simp only [run_test_case.eq_def, hs]
  refine ⟨⟨rfl, pySlice_pySlice 500 msg⟩, rfl, ?_⟩
  show pySlice 500 "Memory limit exceeded" = "Memory limit exceeded"
  decide

/-- Witness for C5: a raised exception with message `boom` on a Python
run. -/
theorem run_exceptions_become_re_witness :
    (SUPPORTED_LANGUAGES "python").isSome = true ∧
    (((run_test_case "python" "" "" 1 2 256
        (.raised "boom")).result.verdict = .RE ∧
     (run_test_case "python" "" "" 1 2 256
        (.raised "boom")).result.error = pySlice 500 "boom") ∧
    ((run_test_case "python" "" "" 1 2 256
        .memoryError).result.verdict = .RE ∧
     (run_test_case "python" "" "" 1 2 256
        .memoryError).result.error = "Memory limit exceeded")) :=
  ⟨by decide, run_exceptions_become_re "python" "" "" 1 2 256 "boom"
    (by decide)⟩

/-- Claim C6: a submission with no test cases whose compilation succeeds
gets score 0.0 and overall verdict AC. -/
theorem judge_no_tests_vacuous_AC (language : String)
    (time_limit_ms memory_limit_mb : Nat) (co : CompileOutcome)
    (outcomes : Nat → RunOutcome)
    (h : (compile_code language co).success = true) :
    (judge_submission language [] time_limit_ms memory_limit_mb co
      outcomes).score = 0 ∧
    (judge_submission language [] time_limit_ms memory_limit_mb co
      outcomes).verdict = .AC := by
  rw [judge_submission_eq language [] time_limit_ms memory_limit_mb co
    outcomes h]
  exact ⟨rfl, rfl⟩

/-- Witness for C6: a Python submission with no test cases. -/
theorem judge_no_tests_vacuous_AC_witness :
    (compile_code "python" CompileOutcome.timedOut).success = true ∧
    ((judge_submission "python" [] 1000 1 CompileOutcome.timedOut
      (fun _ => RunOutcome.timeoutExpired)).score = 0 ∧
    (judge_submission "python" [] 1000 1 CompileOutcome.timedOut
      (fun _ => RunOutcome.timeoutExpired)).verdict = .AC) :=
  ⟨by decide, judge_no_tests_vacuous_AC "python" 1000 1
    CompileOutcome.timedOut (fun _ => RunOutcome.timeoutExpired) (by decide)⟩

/-- Claim C10: the nominal per-test limit is `max 1 (time_limit_ms / 1000)`
whole seconds, so a test case aborted by the hard timeout reports
`time_ms = max 1 (time_limit_ms / 1000) * 1000`, the millisecond limit
truncated down to seconds and floored at one second. -/
theorem judge_truncates_limit_to_seconds (language : String)
    (test_cases : List TestCase) (time_limit_ms memory_limit_mb : Nat)
    (co : CompileOutcome)
    (h : (compile_code language co).success = true) :
    ∀ r ∈ (judge_submission language test_cases time_limit_ms
      memory_limit_mb co (fun _ => RunOutcome.timeoutExpired)).results,
      r.verdict = .TLE ∧
      r.time_ms = (max 1 (time_limit_ms / 1000)) * 1000 := by
  rw [judge_submission_eq language test_cases time_limit_ms memory_limit_mb
    co (fun _ => RunOutcome.timeoutExpired) h]
  rcases Option.isSome_iff_exists.mp (supported_of_compile_success h) with
    ⟨cfg, hs⟩
  exact runAllResults_timeout_mem hs (max 1 (time_limit_ms / 1000))
    memory_limit_mb test_cases 0

/-- Witness for C10: `time_limit_ms = 2500` yields a 2 s limit, and the
hard-timeout TLE reports 2000 ms, not 2500. -/
theorem judge_truncates_limit_to_seconds_witness :
    (compile_code "python" CompileOutcome.timedOut).success = true ∧
    ∀ r ∈ (judge_submission "python" [⟨1, "", "ok"⟩] 2500 256
      CompileOutcome.timedOut (fun _ => RunOutcome.timeoutExpired)).results,
      r.verdict = .TLE ∧ r.time_ms = 2000 := by
  refine ⟨by decide, ?_⟩
  have h := judge_truncates_limit_to_seconds "python" [⟨1, "", "ok"⟩] 2500 256
    CompileOutcome.timedOut (by decide)
  have e : max 1 (2500 / 1000) * 1000 = 2000 := by decide
  simp only [e] at h
  exact h

end MoodleJudge
